import Mathlib

/-!
# st-load: `src/os/htl_os_st.cpp`

A shallow embedding of the statistics aggregator (`StStatistic`), the thread
entry wrapper of the farm (`StFarm::st_thread_function`), the socket wrapper
(`StSocket`), the pacing helper (`StUtility::BuildRandomMTime`) and the
identity registry (`StLogContext`).

Conventions of the embedding.
* C++ `int`, `ssize_t` and `int64_t` values are `Int` (unbounded).
* The results of the system and runtime calls a method makes (`socket`,
  `setsockopt`, `st_netfd_open_socket`, `st_connect`, `st_read`, `st_write`,
  `st_netfd_close`) are arguments of the embedded method, so a theorem that
  quantifies over them covers every behaviour of the environment.
* A `st_netfd_t` is `Option Nat`: `none` is `NULL`, `some h` a live handle.
* The process-wide objects `statistic`, `context` and `errno` are threaded
  explicitly as a `Globals` value.
* `double` arithmetic is carried out over `ℚ`; a division is fallible and
  yields `none` when the divisor is zero.
-/

namespace StLoad

/-! ## Error constants -/

/-- The error constants used by `htl_os_st.cpp`. They are `#define`d in
`htl_core_error.hpp`, which is not part of the sources at hand, so their
numeric values are parameters of the embedding. -/
structure ErrorCodes where
  ERROR_SUCCESS : Int
  ERROR_SOCKET : Int
  ERROR_OPEN_SOCKET : Int
  ERROR_CONNECT : Int
  ERROR_SEND : Int
  ERROR_READ : Int
  ERROR_CLOSE : Int
deriving Repr, DecidableEq

/-- The one assumption made on the constants: success is `0` and every error
constant is nonzero. -/
def ErrorCodes.WellFormed (E : ErrorCodes) : Prop :=
  E.ERROR_SUCCESS = 0 ∧ E.ERROR_SOCKET ≠ 0 ∧ E.ERROR_OPEN_SOCKET ≠ 0 ∧
  E.ERROR_CONNECT ≠ 0 ∧ E.ERROR_SEND ≠ 0 ∧ E.ERROR_READ ≠ 0 ∧ E.ERROR_CLOSE ≠ 0

instance (E : ErrorCodes) : Decidable E.WellFormed := by
  unfold ErrorCodes.WellFormed; infer_instance

/-- A concrete assignment of the constants, used to instantiate theorems. -/
def sampleCodes : ErrorCodes :=
  { ERROR_SUCCESS := 0, ERROR_SOCKET := 100, ERROR_OPEN_SOCKET := 101,
    ERROR_CONNECT := 102, ERROR_SEND := 103, ERROR_READ := 104, ERROR_CLOSE := 105 }

/-- Linux value of `ETIME` from `<errno.h>`. -/
def ETIME : Int := 62

/-- Linux value of `EAGAIN` from `<errno.h>`. -/
def EAGAIN : Int := 11

/-! ## StStatistic -/

/-- The fields of `StStatistic`. -/
structure StStatistic where
  starttime : Int
  threads : Int
  alive : Int
  nread : Int
  nwrite : Int
  tasks : Int
  err_tasks : Int
  sub_tasks : Int
  err_sub_tasks : Int
deriving Repr, DecidableEq

/-- The constructor `StStatistic::StStatistic()`; `now` is the value returned by
`StUtility::GetCurrentTime()`. -/
def StStatistic.new (now : Int) : StStatistic :=
  { starttime := now, threads := 0, alive := 0, nread := 0, nwrite := 0,
    tasks := 0, err_tasks := 0, sub_tasks := 0, err_sub_tasks := 0 }

/-- The method `StStatistic::OnRead(tid, nread)`. -/
def StStatistic.OnRead (self : StStatistic) (_tid : Int) (nread : Int) : StStatistic :=
  { self with nread := self.nread + nread }

/-- The method `StStatistic::OnWrite(tid, nwrite)`. -/
def StStatistic.OnWrite (self : StStatistic) (_tid : Int) (nwrite : Int) : StStatistic :=
  { self with nwrite := self.nwrite + nwrite }

/-- The method `StStatistic::OnThreadRun(tid)`. -/
def StStatistic.OnThreadRun (self : StStatistic) (_tid : Int) : StStatistic :=
  { self with threads := self.threads + 1 }

/-- The method `StStatistic::OnThreadQuit(tid)`. -/
def StStatistic.OnThreadQuit (self : StStatistic) (_tid : Int) : StStatistic :=
  { self with threads := self.threads - 1 }

/-- The method `StStatistic::OnTaskStart(tid, task_url)`. -/
def StStatistic.OnTaskStart (self : StStatistic) (_tid : Int) : StStatistic :=
  { self with alive := self.alive + 1, tasks := self.tasks + 1 }

/-- The method `StStatistic::OnTaskError(tid)`. -/
def StStatistic.OnTaskError (self : StStatistic) (_tid : Int) : StStatistic :=
  { self with alive := self.alive - 1, err_tasks := self.err_tasks + 1 }

/-- The method `StStatistic::OnTaskEnd(tid)`. -/
def StStatistic.OnTaskEnd (self : StStatistic) (_tid : Int) : StStatistic :=
  { self with alive := self.alive - 1 }

/-- The method `StStatistic::OnSubTaskStart(tid, sub_task_url)`. -/
def StStatistic.OnSubTaskStart (self : StStatistic) (_tid : Int) : StStatistic :=
  { self with sub_tasks := self.sub_tasks + 1 }

/-- The method `StStatistic::OnSubTaskError(tid)`. -/
def StStatistic.OnSubTaskError (self : StStatistic) (_tid : Int) : StStatistic :=
  { self with err_sub_tasks := self.err_sub_tasks + 1 }

/-- The method `StStatistic::OnSubTaskEnd(tid)`. -/
def StStatistic.OnSubTaskEnd (self : StStatistic) (_tid : Int) : StStatistic :=
  self

/-- Division of `double`s over `ℚ`: `none` when the divisor is zero (the
floating-point quotient is then not a finite number). -/
def fdiv (a b : ℚ) : Option ℚ :=
  if b = 0 then none else some (a / b)

/-- The figures computed by one iteration of the loop of `DoReport`. -/
structure Report where
  duration : Int
  read_mbps : Option ℚ
  write_mbps : Option ℚ
deriving DecidableEq

/-- One iteration of the loop of `StStatistic::DoReport`, up to the `LReport`
call; `now` is the value returned by `StUtility::GetCurrentTime()`. Both rates
start at `0` and are recomputed only under the guard `duration > 0`. -/
def StStatistic.DoReport (self : StStatistic) (now : Int) : Report :=
  let duration : Int := now - self.starttime
  if duration > 0 then
    { duration := duration,
      read_mbps := (fdiv ((self.nread : ℚ) * 8) (duration : ℚ)).bind (fun x => fdiv x 1000),
      write_mbps := (fdiv ((self.nwrite : ℚ) * 8) (duration : ℚ)).bind (fun x => fdiv x 1000) }
  else
    { duration := duration, read_mbps := some 0, write_mbps := some 0 }

/-! ## StLogContext -/

/-- The class `StLogContext`: `cache` is a `std::map<st_thread_t, int>`; a
thread handle is a `Nat`, and `cache h = none` says the map has no entry for
`h`. -/
structure StLogContext where
  cache : Nat → Option Int

/-- The constructor `StLogContext::StLogContext()`: an empty map. -/
def StLogContext.new : StLogContext :=
  { cache := fun _ => none }

/-- The method `StLogContext::SetId(id)` executed by the thread `self_thread`
(the value of `st_thread_self()`): `cache[st_thread_self()] = id`. -/
def StLogContext.SetId (self : StLogContext) (self_thread : Nat) (id : Int) : StLogContext :=
  { cache := fun h => if h = self_thread then some id else self.cache h }

/-- The method `StLogContext::GetId()` executed by the thread `self_thread`:
`return cache[st_thread_self()]`. `operator[]` of `std::map` inserts a
value-initialised entry (`0`) when the key is absent, so the registry is
returned as well. -/
def StLogContext.GetId (self : StLogContext) (self_thread : Nat) : Int × StLogContext :=
  match self.cache self_thread with
  | some id => (id, self)
  | none => (0, { cache := fun h => if h = self_thread then some 0 else self.cache h })

/-- A call on the registry together with the thread that makes it. -/
inductive RegistryCall where
  | SetId (thread : Nat) (id : Int)
  | GetId (thread : Nat)
deriving Repr, DecidableEq

/-- The thread making a registry call. -/
def RegistryCall.thread : RegistryCall → Nat
  | .SetId t _ => t
  | .GetId t => t

/-- The registry after one call. -/
def StLogContext.call (self : StLogContext) : RegistryCall → StLogContext
  | .SetId t id => self.SetId t id
  | .GetId t => (self.GetId t).2

/-- The registry after a sequence of calls, oldest first. -/
def StLogContext.calls (self : StLogContext) (cs : List RegistryCall) : StLogContext :=
  cs.foldl StLogContext.call self

/-! ## Process-wide state -/

/-- The globals touched by this file: `statistic`, `context` and `errno`. -/
structure Globals where
  statistic : StStatistic
  context : StLogContext
  errno : Int

/-! ## StSocket -/

/-- The enumeration `SocketStatus` (declared in `htl_os_st.hpp`). -/
inductive SocketStatus where
  | SocketInit
  | SocketConnected
  | SocketDisconnected
deriving Repr, DecidableEq

open SocketStatus

/-- The fields of `StSocket`. -/
structure StSocket where
  sock_nfd : Option Nat
  status : SocketStatus
deriving Repr, DecidableEq

/-- The constructor `StSocket::StSocket()`. -/
def StSocket.new : StSocket :=
  { sock_nfd := none, status := SocketInit }

/-- The method `StSocket::Status()`. -/
def StSocket.Status (self : StSocket) : SocketStatus :=
  self.status

/-- A socket is never `SocketConnected` without holding a descriptor. -/
def StSocket.Inv (s : StSocket) : Prop :=
  s.status = SocketConnected → s.sock_nfd ≠ none

instance (s : StSocket) : Decidable s.Inv := by
  unfold StSocket.Inv; infer_instance

/-- What a `Close` call yields: the returned code, the socket afterwards and
the handles passed to `st_netfd_close` during the call. -/
structure CloseResult where
  ret : Int
  sock : StSocket
  released : List Nat
deriving Repr, DecidableEq

/-- The method `StSocket::Close()`; `close_ret` is what `st_netfd_close` returns
if it is called. -/
def StSocket.Close (E : ErrorCodes) (self : StSocket) (close_ret : Int) : CloseResult :=
  match self.sock_nfd with
  | none => { ret := E.ERROR_SUCCESS, sock := self, released := [] }
  | some fd =>
    { ret := if close_ret ≠ 0 then E.ERROR_CLOSE else E.ERROR_SUCCESS,
      sock := { sock_nfd := none, status := SocketDisconnected },
      released := [fd] }

/-- The results of the calls one `Connect` makes, in program order:
`st_netfd_close` (inside `Close`), `socket`, `setsockopt`,
`st_netfd_open_socket` (`none` is `NULL`) and `st_connect`. A result is only
consulted when the call is reached. -/
structure ConnectEnv where
  close_ret : Int
  sock : Int
  setsockopt_ret : Int
  nfd : Option Nat
  connect_ret : Int
deriving Repr, DecidableEq

/-- A step of `Connect` fails, with the tests the code applies. -/
def ConnectEnv.Fails (o : ConnectEnv) : Prop :=
  o.sock = -1 ∨ o.setsockopt_ret = -1 ∨ o.nfd = none ∨ o.connect_ret = -1

instance (o : ConnectEnv) : Decidable o.Fails := by
  unfold ConnectEnv.Fails; infer_instance

/-- The method `StSocket::Connect(ip, port)`: the returned code and the socket
afterwards. The address only reaches `st_connect` and the log. -/
def StSocket.Connect (E : ErrorCodes) (self : StSocket) (o : ConnectEnv) : Int × StSocket :=
  let s0 := (self.Close E o.close_ret).sock
  if o.sock = -1 then (E.ERROR_SOCKET, s0)
  else if o.setsockopt_ret = -1 then (E.ERROR_SOCKET, s0)
  else
    let s1 : StSocket := { s0 with sock_nfd := o.nfd }
    if o.nfd = none then (E.ERROR_OPEN_SOCKET, s1)
    else if o.connect_ret = -1 then (E.ERROR_CONNECT, s1)
    else (E.ERROR_SUCCESS, { s1 with status := SocketConnected })

/-- The result of one `st_read` or `st_write`: the returned byte count and the
value of `errno` after the call. -/
structure IoEnv where
  n : Int
  errno : Int
deriving Repr, DecidableEq

/-- What a `Read` or `Write` yields: the returned code, the value stored
through the out-parameter, the socket and the globals afterwards. -/
structure IoResult where
  ret : Int
  n : Int
  sock : StSocket
  g : Globals

/-- The method `StSocket::Read(buf, size, nread)` executed by the thread
`self_thread`; `r` is the result of `st_read`. -/
def StSocket.Read (E : ErrorCodes) (self : StSocket) (g : Globals) (self_thread : Nat)
    (r : IoEnv) : IoResult :=
  let nread := r.n
  let g0 : Globals := { g with errno := r.errno }
  let x : IoResult :=
    if nread ≤ 0 then
      { ret := E.ERROR_READ, n := nread,
        sock := { self with status := SocketDisconnected },
        g := if g0.errno = ETIME then { g0 with errno := EAGAIN } else g0 }
    else { ret := E.ERROR_SUCCESS, n := nread, sock := self, g := g0 }
  if nread > 0 then
    let id := x.g.context.GetId self_thread
    { x with g := { x.g with context := id.2, statistic := x.g.statistic.OnRead id.1 nread } }
  else x

/-- The method `StSocket::Write(buf, size, nwrite)` executed by the thread
`self_thread`; `r` is the result of `st_write`. -/
def StSocket.Write (E : ErrorCodes) (self : StSocket) (g : Globals) (self_thread : Nat)
    (r : IoEnv) : IoResult :=
  let nwrite := r.n
  let g0 : Globals := { g with errno := r.errno }
  let x : IoResult :=
    if nwrite ≤ 0 then
      { ret := E.ERROR_SEND, n := nwrite,
        sock := { self with status := SocketDisconnected },
        g := if g0.errno = ETIME then { g0 with errno := EAGAIN } else g0 }
    else { ret := E.ERROR_SUCCESS, n := nwrite, sock := self, g := g0 }
  if nwrite > 0 then
    let id := x.g.context.GetId self_thread
    { x with g := { x.g with context := id.2, statistic := x.g.statistic.OnWrite id.1 nwrite } }
  else x

/-- A public call on one socket, with the thread making it and the results of
the underlying calls. -/
inductive SocketCall where
  | Connect (o : ConnectEnv)
  | Read (thread : Nat) (r : IoEnv)
  | Write (thread : Nat) (r : IoEnv)
  | Close (close_ret : Int)
deriving Repr, DecidableEq

/-- The call is a `Close`. -/
def SocketCall.isClose : SocketCall → Bool
  | .Close _ => true
  | _ => false

/-- The call is a `Connect` all of whose steps succeed. -/
def SocketCall.IsGoodConnect : SocketCall → Prop
  | .Connect o => ¬ o.Fails
  | _ => False

instance (c : SocketCall) : Decidable c.IsGoodConnect := by
  cases c <;> unfold SocketCall.IsGoodConnect <;> infer_instance

/-- One socket together with the globals its calls touch. -/
structure SocketWorld where
  sock : StSocket
  g : Globals

/-- The effect of one public call. -/
def SocketWorld.call (E : ErrorCodes) (w : SocketWorld) : SocketCall → SocketWorld
  | .Connect o => { w with sock := (w.sock.Connect E o).2 }
  | .Read t r => let x := w.sock.Read E w.g t r; { sock := x.sock, g := x.g }
  | .Write t r => let x := w.sock.Write E w.g t r; { sock := x.sock, g := x.g }
  | .Close c => { w with sock := (w.sock.Close E c).sock }

/-- The effect of a sequence of public calls, oldest first. -/
def SocketWorld.calls (E : ErrorCodes) (w : SocketWorld) (cs : List SocketCall) : SocketWorld :=
  cs.foldl (SocketWorld.call E) w

/-- A world around a freshly constructed socket. -/
def SocketWorld.fresh (g : Globals) : SocketWorld :=
  { sock := StSocket.new, g := g }

/-- Globals at process start: a fresh `StStatistic` built at time `now`, an
empty registry and `errno = 0`. -/
def Globals.fresh (now : Int) : Globals :=
  { statistic := StStatistic.new now, context := StLogContext.new, errno := 0 }

/-- The `Status()` values observed after each call of a sequence, starting with
the value before the first call. -/
def statusTrace (E : ErrorCodes) (w : SocketWorld) : List SocketCall → List SocketStatus
  | [] => [w.sock.Status]
  | c :: cs => w.sock.Status :: statusTrace E (w.call E c) cs

/-- A `Connect` whose steps all succeed (descriptor `3`, handle `h`). -/
def goodConnect (h : Nat) : ConnectEnv :=
  { close_ret := 0, sock := 3, setsockopt_ret := 0, nfd := some h, connect_ret := 0 }

/-- A `Connect` refused by the peer: every step before `st_connect` succeeds and
`st_connect` returns `-1`. -/
def refusedConnect (h : Nat) : ConnectEnv :=
  { close_ret := 0, sock := 3, setsockopt_ret := 0, nfd := some h, connect_ret := -1 }

/-- A socket that is connected and holds the handle `5`. -/
def connectedSocket : StSocket :=
  { sock_nfd := some 5, status := SocketStatus.SocketConnected }

/-- A connect, a read that hits end of stream, and a second connect, with no
`Close` call by the caller. -/
def reconnectCalls : List SocketCall :=
  [.Connect (goodConnect 1), .Read 1 ⟨0, 0⟩, .Connect (goodConnect 2)]

/-! ## Several sockets sharing the statistics -/

/-- A `Read` or `Write` made by thread `thread` on the socket numbered `sock`,
with the result of the underlying `st_read` or `st_write`. -/
inductive IoCall where
  | Read (sock : Nat) (thread : Nat) (r : IoEnv)
  | Write (sock : Nat) (thread : Nat) (r : IoEnv)
deriving Repr, DecidableEq

/-- Any number of sockets (one per number) and the globals they share. -/
structure Sys where
  socks : Nat → StSocket
  g : Globals

/-- The effect of one `Read` or `Write`. -/
def Sys.io (E : ErrorCodes) (w : Sys) : IoCall → Sys
  | .Read k t r =>
    let x := (w.socks k).Read E w.g t r
    { socks := fun j => if j = k then x.sock else w.socks j, g := x.g }
  | .Write k t r =>
    let x := (w.socks k).Write E w.g t r
    { socks := fun j => if j = k then x.sock else w.socks j, g := x.g }

/-- The effect of a sequence of `Read` and `Write` calls, oldest first. -/
def Sys.ios (E : ErrorCodes) (w : Sys) (cs : List IoCall) : Sys :=
  cs.foldl (Sys.io E) w

/-- The sum of the positive `Read` results of a sequence of calls. -/
def positiveReads : List IoCall → Int
  | [] => 0
  | .Read _ _ r :: cs => (if r.n > 0 then r.n else 0) + positiveReads cs
  | .Write _ _ _ :: cs => positiveReads cs

/-- The sum of the positive `Write` results of a sequence of calls. -/
def positiveWrites : List IoCall → Int
  | [] => 0
  | .Read _ _ _ :: cs => positiveWrites cs
  | .Write _ _ r :: cs => (if r.n > 0 then r.n else 0) + positiveWrites cs

/-! ## StFarm: the thread entry wrapper -/

/-- The class `StTask`: its id and its virtual `Process()`, which may read and
change the globals and returns a status code. -/
structure StTask where
  id : Int
  Process : Globals → Int × Globals

/-- The method `StTask::GetId()`. -/
def StTask.GetId (self : StTask) : Int :=
  self.id

/-- The part of `StFarm::st_thread_function` that precedes `task->Process()`,
executed by thread `self_thread`: `context->SetId(task->GetId())` and
`statistic->OnThreadRun(task->GetId())`. -/
def StFarm.threadEnter (task_id : Int) (self_thread : Nat) (g : Globals) : Globals :=
  let g1 : Globals := { g with context := g.context.SetId self_thread task_id }
  { g1 with statistic := g1.statistic.OnThreadRun task_id }

/-- The part of `StFarm::st_thread_function` that follows `task->Process()`:
`statistic->OnThreadQuit(task->GetId())`; the log line and `delete task` leave
the globals alone, whatever `ret` is. -/
def StFarm.threadExit (task_id : Int) (_ret : Int) (g : Globals) : Globals :=
  { g with statistic := g.statistic.OnThreadQuit task_id }

/-- The function `StFarm::st_thread_function(args)` run to completion by thread
`self_thread`, with `task` the `StTask*` passed in `args`. -/
def StFarm.st_thread_function (task : StTask) (self_thread : Nat) (g : Globals) : Globals :=
  let g1 := StFarm.threadEnter task.GetId self_thread g
  let (ret, g2) := task.Process g1
  StFarm.threadExit task.GetId ret g2

/-- What the cooperative scheduler can run next: the start of a wrapper up to
the call of `Process`, a stretch of some running `Process` between two
suspension points (any change `f` of the globals), or the end of a wrapper
from the return of `Process` with code `ret`. -/
inductive ThreadEvent where
  | enter (thread : Nat) (task_id : Int)
  | slice (thread : Nat) (f : Globals → Globals)
  | leave (thread : Nat) (task_id : Int) (ret : Int)

/-- The event starts a wrapper. -/
def ThreadEvent.isEnter : ThreadEvent → Bool
  | .enter _ _ => true
  | _ => false

/-- A stretch of `Process` leaves the active-thread gauge alone. -/
def ThreadEvent.KeepsGauge : ThreadEvent → Prop
  | .slice _ f => ∀ g : Globals, (f g).statistic.threads = g.statistic.threads
  | _ => True

/-- The globals together with the threads that are inside `Process` and the
threads whose wrapper has returned. -/
structure Farm where
  g : Globals
  running : List Nat
  finished : List Nat

/-- The farm before any thread has run. -/
def Farm.fresh (now : Int) : Farm :=
  { g := Globals.fresh now, running := [], finished := [] }

/-- One scheduling step; `none` when the event cannot happen (a thread enters
only while it is not running, and runs or leaves only after it entered). -/
def Farm.step (w : Farm) : ThreadEvent → Option Farm
  | .enter t id =>
    if t ∈ w.running then none
    else some { w with g := StFarm.threadEnter id t w.g, running := t :: w.running }
  | .slice t f =>
    if t ∈ w.running then some { w with g := f w.g } else none
  | .leave t id ret =>
    if t ∈ w.running then
      some { g := StFarm.threadExit id ret w.g, running := w.running.erase t,
             finished := t :: w.finished }
    else none

/-- A schedule, oldest event first. -/
def Farm.exec (w : Farm) : List ThreadEvent → Option Farm
  | [] => some w
  | e :: es => (w.step e).bind (fun w1 => Farm.exec w1 es)

/-- Two wrappers interleaved: both enter, both work, then both leave, the
second with a nonzero status. -/
def sampleSchedule : List ThreadEvent :=
  [.enter 1 10, .enter 2 20,
   .slice 1 (fun g => { g with statistic := g.statistic.OnTaskStart 10 }),
   .slice 2 (fun g => { g with statistic := g.statistic.OnWrite 20 100 }),
   .leave 2 20 7, .leave 1 10 0]

/-- The farm after `sampleSchedule`, started at time `0`. -/
def sampleFinal : Farm :=
  { g :=
      { statistic := { StStatistic.new 0 with alive := 1, tasks := 1, nwrite := 100 },
        context := (StLogContext.new.SetId 1 10).SetId 2 20,
        errno := 0 },
    running := [],
    finished := [1, 2] }

/-- A task with id `10` whose `Process` starts a task, fails it and returns `7`. -/
def sampleTask : StTask :=
  { id := 10,
    Process := fun g =>
      (7, { g with statistic := (g.statistic.OnTaskStart 10).OnTaskError 10 }) }

/-! ## StUtility::BuildRandomMTime -/

/-- The conversion `(int)x` of a `double`, and likewise the conversion to
`st_utime_t` of a non-negative one: truncation toward zero (values outside the
range of the target type are not modelled). -/
def truncToInt (x : ℚ) : Int :=
  x.num.tdiv x.den

/-- The function `StUtility::BuildRandomMTime(sleep_seconds, default_seconds)`;
`rand` is the value returned by `rand()`. The result is `none` when the
operator `%` is applied to a zero divisor, which is undefined in C++. -/
def StUtility.BuildRandomMTime (sleep_seconds default_seconds : ℚ) (rand : Int) : Option Int :=
  if sleep_seconds ≤ 0 then
    some (truncToInt (default_seconds * 1000))
  else
    let divisor := truncToInt (sleep_seconds * 1000 * (4 / 10))
    if divisor = 0 then none
    else some (truncToInt (sleep_seconds * 1000 * (8 / 10)) + rand.tmod divisor)

/-! ## Theorems: StSocket -/

section Socket

open SocketStatus

theorem Close_sock_nfd (E : ErrorCodes) (s : StSocket) (c : Int) :
    (s.Close E c).sock.sock_nfd = none := by
  unfold StSocket.Close
  cases h : s.sock_nfd <;> simp [h]

theorem Close_status (E : ErrorCodes) (s : StSocket) (c : Int) :
    (s.Close E c).sock.status = s.status ∨ (s.Close E c).sock.status = SocketDisconnected := by
  unfold StSocket.Close
  cases h : s.sock_nfd <;> simp

theorem Close_status_ne_connected (E : ErrorCodes) (s : StSocket) (c : Int) (hs : s.Inv) :
    (s.Close E c).sock.status ≠ SocketConnected := by
  unfold StSocket.Close
  cases h : s.sock_nfd with
  | none =>
    intro hc
    exact hs hc h
  | some fd => simp

theorem Connect_inv (E : ErrorCodes) (s : StSocket) (o : ConnectEnv) (hs : s.Inv) :
    (s.Connect E o).2.Inv := by
  have h0 := Close_status_ne_connected E s o.close_ret hs
  unfold StSocket.Connect
  simp only
  split_ifs with h1 h2 h3 h4
  · intro hc; exact absurd hc h0
  · intro hc; exact absurd hc h0
  · intro hc; exact absurd hc h0
  · intro hc; exact absurd hc h0
  · intro _; exact h3

theorem Read_sock (E : ErrorCodes) (s : StSocket) (g : Globals) (t : Nat) (r : IoEnv) :
    (s.Read E g t r).sock = if r.n ≤ 0 then { s with status := SocketDisconnected } else s := by
  unfold StSocket.Read
  simp only
  split_ifs <;> rfl

theorem Write_sock (E : ErrorCodes) (s : StSocket) (g : Globals) (t : Nat) (r : IoEnv) :
    (s.Write E g t r).sock = if r.n ≤ 0 then { s with status := SocketDisconnected } else s := by
  unfold StSocket.Write
  simp only
  split_ifs <;> rfl

theorem Read_ret (E : ErrorCodes) (s : StSocket) (g : Globals) (t : Nat) (r : IoEnv) :
    (s.Read E g t r).ret = if r.n ≤ 0 then E.ERROR_READ else E.ERROR_SUCCESS := by
  unfold StSocket.Read
  simp only
  split_ifs <;> rfl

theorem Write_ret (E : ErrorCodes) (s : StSocket) (g : Globals) (t : Nat) (r : IoEnv) :
    (s.Write E g t r).ret = if r.n ≤ 0 then E.ERROR_SEND else E.ERROR_SUCCESS := by
  unfold StSocket.Write
  simp only
  split_ifs <;> rfl

theorem Read_n (E : ErrorCodes) (s : StSocket) (g : Globals) (t : Nat) (r : IoEnv) :
    (s.Read E g t r).n = r.n := by
  unfold StSocket.Read
  simp only
  split_ifs <;> rfl

theorem Write_n (E : ErrorCodes) (s : StSocket) (g : Globals) (t : Nat) (r : IoEnv) :
    (s.Write E g t r).n = r.n := by
  unfold StSocket.Write
  simp only
  split_ifs <;> rfl

theorem call_inv (E : ErrorCodes) (w : SocketWorld) (c : SocketCall) (hs : w.sock.Inv) :
    (w.call E c).sock.Inv := by
  cases c with
  | Connect o => exact Connect_inv E w.sock o hs
  | Read t r =>
    show (w.sock.Read E w.g t r).sock.Inv
    rw [Read_sock]
    split_ifs
    · intro hc; simp at hc
    · exact hs
  | Write t r =>
    show (w.sock.Write E w.g t r).sock.Inv
    rw [Write_sock]
    split_ifs
    · intro hc; simp at hc
    · exact hs
  | Close c =>
    intro hc
    exact absurd hc (Close_status_ne_connected E w.sock c hs)

theorem calls_inv (E : ErrorCodes) (cs : List SocketCall) (w : SocketWorld) (hs : w.sock.Inv) :
    (w.calls E cs).sock.Inv := by
  induction cs generalizing w with
  | nil => exact hs
  | cons c cs ih => exact ih (w.call E c) (call_inv E w c hs)

theorem fresh_inv (g : Globals) : (SocketWorld.fresh g).sock.Inv := by
  intro hc
  simp [SocketWorld.fresh, StSocket.new] at hc

/-- C9: `Close` is idempotent. A `Close` made right after a `Close` returns
`ERROR_SUCCESS`, releases nothing and leaves the socket as it was, whatever the
first release returned; a `Close` without a descriptor is a no-op returning
`ERROR_SUCCESS`; a `Close` with a descriptor releases exactly that descriptor,
drops it, sets the status to `SocketDisconnected` and returns `ERROR_CLOSE`
exactly when the release fails. -/
theorem C9_close_idempotent (E : ErrorCodes) (hE : E.WellFormed) (s : StSocket) (c1 c2 : Int) :
    (((s.Close E c1).sock.Close E c2).ret = E.ERROR_SUCCESS ∧
      ((s.Close E c1).sock.Close E c2).released = [] ∧
      ((s.Close E c1).sock.Close E c2).sock = (s.Close E c1).sock) ∧
    (s.sock_nfd = none →
      (s.Close E c1).ret = E.ERROR_SUCCESS ∧ (s.Close E c1).released = [] ∧
      (s.Close E c1).sock = s) ∧
    (∀ fd, s.sock_nfd = some fd →
      (s.Close E c1).released = [fd] ∧ (s.Close E c1).sock.sock_nfd = none ∧
      (s.Close E c1).sock.Status = SocketDisconnected ∧
      ((s.Close E c1).ret = E.ERROR_CLOSE ↔ c1 ≠ 0) ∧
      ((s.Close E c1).ret = E.ERROR_SUCCESS ↔ c1 = 0)) := by
  obtain ⟨h0, -, -, -, -, -, hclose⟩ := hE
  refine ⟨?_, ?_, ?_⟩
  · have hn := Close_sock_nfd E s c1
    generalize (s.Close E c1).sock = s1 at hn
    simp [StSocket.Close, hn]
  · intro hn
    simp [StSocket.Close, hn]
  · intro fd hfd
    simp only [StSocket.Close, hfd, StSocket.Status, true_and]
    by_cases hc : c1 = 0
    · simp [hc, h0]
      intro h
      exact hclose h.symm
    · simp [hc, h0]
      exact hclose

/-- C9 at a concrete input: a connected socket holding handle `5` whose release
fails, closed twice. -/
theorem C9_close_idempotent_witness :
    sampleCodes.WellFormed ∧
    (connectedSocket.Close sampleCodes (-1)).ret = 105 ∧
    ((connectedSocket.Close sampleCodes (-1)).sock.Close sampleCodes (-1)).ret = 0 ∧
    ((connectedSocket.Close sampleCodes (-1)).sock.Close sampleCodes (-1)).released = [] :=
  have h := C9_close_idempotent sampleCodes (by decide) connectedSocket (-1) (-1)
  ⟨by decide, ((h.2.2 5 rfl).2.2.2.1).2 (by decide), h.1.1, h.1.2.1⟩

/-- C4: `Read` returns `ERROR_READ` exactly when the `st_read` result is not
positive, and then the status is `SocketDisconnected`; on a positive result it
returns `ERROR_SUCCESS`, reports the result as the bytes read and leaves the
socket unchanged. `Write` behaves the same way with `ERROR_SEND` and
`st_write`. -/
theorem C4_read_write (E : ErrorCodes) (hE : E.WellFormed) (s : StSocket) (g : Globals)
    (t : Nat) (r : IoEnv) :
    (((s.Read E g t r).ret = E.ERROR_READ ↔ r.n ≤ 0) ∧
      (r.n ≤ 0 → (s.Read E g t r).sock.Status = SocketDisconnected) ∧
      (r.n > 0 → (s.Read E g t r).ret = E.ERROR_SUCCESS ∧ (s.Read E g t r).n = r.n ∧
        (s.Read E g t r).sock.Status = s.Status ∧ (s.Read E g t r).sock = s)) ∧
    (((s.Write E g t r).ret = E.ERROR_SEND ↔ r.n ≤ 0) ∧
      (r.n ≤ 0 → (s.Write E g t r).sock.Status = SocketDisconnected) ∧
      (r.n > 0 → (s.Write E g t r).ret = E.ERROR_SUCCESS ∧ (s.Write E g t r).n = r.n ∧
        (s.Write E g t r).sock.Status = s.Status ∧ (s.Write E g t r).sock = s)) := by
  obtain ⟨h0, -, -, -, hsend, hread, -⟩ := hE
  rw [Read_ret, Read_sock, Read_n, Write_ret, Write_sock, Write_n]
  by_cases hn : r.n ≤ 0
  · have hn2 : ¬ r.n > 0 := by omega
    simp [hn, hn2, StSocket.Status]
  · have hn2 : r.n > 0 := by omega
    simp only [hn, hn2, if_false, StSocket.Status, iff_false, h0, true_and, and_true,
      false_implies, forall_true_left, implies_true]
    exact ⟨fun h => hread h.symm, fun h => hsend h.symm⟩

/-- C4 at a concrete input: a connected socket whose `st_read` and `st_write`
return `0`. -/
theorem C4_read_write_witness :
    sampleCodes.WellFormed ∧
    (connectedSocket.Read sampleCodes (Globals.fresh 0) 1 ⟨0, 0⟩).ret = 104 ∧
    (connectedSocket.Write sampleCodes (Globals.fresh 0) 1 ⟨0, 0⟩).ret = 103 :=
  have h := C4_read_write sampleCodes (by decide) connectedSocket (Globals.fresh 0) 1 ⟨0, 0⟩
  ⟨by decide, h.1.1.2 (by decide), h.2.1.2 (by decide)⟩

theorem Connect_cases (E : ErrorCodes) (s : StSocket) (o : ConnectEnv) :
    (o.Fails ∧ (s.Connect E o).2.status = (s.Close E o.close_ret).sock.status ∧
      ((s.Connect E o).1 = E.ERROR_SOCKET ∨ (s.Connect E o).1 = E.ERROR_OPEN_SOCKET ∨
        (s.Connect E o).1 = E.ERROR_CONNECT)) ∨
    (¬ o.Fails ∧ (s.Connect E o).2.status = SocketConnected ∧
      (s.Connect E o).1 = E.ERROR_SUCCESS) := by
  unfold StSocket.Connect ConnectEnv.Fails
  simp only
  split_ifs with h1 h2 h3 h4
  · exact Or.inl ⟨Or.inl h1, rfl, Or.inl rfl⟩
  · exact Or.inl ⟨Or.inr (Or.inl h2), rfl, Or.inl rfl⟩
  · exact Or.inl ⟨Or.inr (Or.inr (Or.inl h3)), rfl, Or.inr (Or.inl rfl)⟩
  · exact Or.inl ⟨Or.inr (Or.inr (Or.inr h4)), rfl, Or.inr (Or.inr rfl)⟩
  · exact Or.inr ⟨by tauto, rfl, rfl⟩

/-- C2, refuted as stated: on a freshly constructed socket, a `Connect` whose
`st_connect` step fails after the earlier steps succeeded returns
`ERROR_CONNECT`, and `Status()` afterwards is `SocketInit`, not
`SocketDisconnected`. -/
theorem C2_refused_connect_counterexample :
    (refusedConnect 1).sock ≠ -1 ∧ (refusedConnect 1).setsockopt_ret ≠ -1 ∧
    (refusedConnect 1).nfd ≠ none ∧ (refusedConnect 1).connect_ret = -1 ∧
    (StSocket.new.Connect sampleCodes (refusedConnect 1)).1 = sampleCodes.ERROR_CONNECT ∧
    (StSocket.new.Connect sampleCodes (refusedConnect 1)).2.Status = SocketInit ∧
    (StSocket.new.Connect sampleCodes (refusedConnect 1)).2.Status ≠ SocketDisconnected := by
  decide

/-- C2, amended: on a freshly constructed socket, a `Connect` whose `st_connect`
step fails after the earlier steps succeeded returns `ERROR_CONNECT`, keeps the
handle obtained from `st_netfd_open_socket`, and leaves `Status()` at
`SocketInit` (so not `SocketConnected`). -/
theorem C2_refused_connect (E : ErrorCodes) (o : ConnectEnv) (h : Nat)
    (hsock : o.sock ≠ -1) (hopt : o.setsockopt_ret ≠ -1) (hnfd : o.nfd = some h)
    (hconn : o.connect_ret = -1) :
    (StSocket.new.Connect E o).1 = E.ERROR_CONNECT ∧
    (StSocket.new.Connect E o).2.Status = SocketInit ∧
    (StSocket.new.Connect E o).2.sock_nfd = some h := by
  simp [StSocket.Connect, StSocket.Close, StSocket.new, StSocket.Status, hsock, hopt, hnfd, hconn]

/-- C2 amended, at a concrete input. -/
theorem C2_refused_connect_witness :
    (StSocket.new.Connect sampleCodes (refusedConnect 1)).1 = 102 ∧
    (StSocket.new.Connect sampleCodes (refusedConnect 1)).2.Status = SocketInit ∧
    (StSocket.new.Connect sampleCodes (refusedConnect 1)).2.sock_nfd = some 1 :=
  C2_refused_connect sampleCodes (refusedConnect 1) 1 (by decide) (by decide) rfl rfl

/-- C3: on every socket reached from construction by `Connect`, `Read`, `Write`
and `Close` calls, `Connect` returns a nonzero code exactly when one of its
steps fails, and then the status is not `SocketConnected`; when every step
succeeds it returns `ERROR_SUCCESS` and the status is `SocketConnected`. -/
theorem C3_connect_result (E : ErrorCodes) (hE : E.WellFormed) (g : Globals)
    (cs : List SocketCall) (o : ConnectEnv) :
    ((((SocketWorld.fresh g).calls E cs).sock.Connect E o).1 ≠ 0 ↔ o.Fails) ∧
    (o.Fails →
      (((SocketWorld.fresh g).calls E cs).sock.Connect E o).2.Status ≠ SocketConnected) ∧
    (¬ o.Fails →
      (((SocketWorld.fresh g).calls E cs).sock.Connect E o).1 = E.ERROR_SUCCESS ∧
      (((SocketWorld.fresh g).calls E cs).sock.Connect E o).2.Status = SocketConnected) := by
  obtain ⟨h0, hsock, hopen, hconn, -, -, -⟩ := hE
  have hinv := calls_inv E cs (SocketWorld.fresh g) (fresh_inv g)
  generalize ((SocketWorld.fresh g).calls E cs).sock = s at hinv
  have hclose := Close_status_ne_connected E s o.close_ret hinv
  rcases Connect_cases E s o with ⟨hf, hst, hret⟩ | ⟨hf, hst, hret⟩
  · refine ⟨⟨fun _ => hf, fun _ => ?_⟩, fun _ => ?_, fun hnf => absurd hf hnf⟩
    · rcases hret with hret | hret | hret <;> rw [hret] <;> assumption
    · show (s.Connect E o).2.status ≠ SocketConnected
      rw [hst]
      exact hclose
  · refine ⟨⟨fun hne => ?_, fun hf2 => absurd hf2 hf⟩, fun hf2 => absurd hf2 hf, fun _ => ⟨hret, hst⟩⟩
    rw [hret, h0] at hne
    exact absurd rfl hne

/-- C3 at a concrete input: a socket that is connected, then reconnected with a
refused `st_connect`. -/
theorem C3_connect_result_witness :
    sampleCodes.WellFormed ∧
    (((SocketWorld.fresh (Globals.fresh 0)).calls sampleCodes
        [SocketCall.Connect (goodConnect 1)]).sock.Connect sampleCodes (refusedConnect 2)).1 ≠ 0 ∧
    (((SocketWorld.fresh (Globals.fresh 0)).calls sampleCodes
        [SocketCall.Connect (goodConnect 1)]).sock.Connect sampleCodes
          (refusedConnect 2)).2.Status ≠ SocketConnected :=
  have h := C3_connect_result sampleCodes (by decide) (Globals.fresh 0)
    [SocketCall.Connect (goodConnect 1)] (refusedConnect 2)
  ⟨by decide, h.1.2 (by decide), h.2.1 (by decide)⟩

theorem call_status_init (E : ErrorCodes) (w : SocketWorld) (c : SocketCall)
    (h : (w.call E c).sock.status = SocketInit) : w.sock.status = SocketInit := by
  cases c with
  | Connect o =>
    change (w.sock.Connect E o).2.status = SocketInit at h
    rcases Connect_cases E w.sock o with ⟨-, hst, -⟩ | ⟨-, hst, -⟩
    · rw [hst] at h
      rcases Close_status E w.sock o.close_ret with h2 | h2
      · rw [← h2]; exact h
      · rw [h2] at h; exact absurd h (by decide)
    · rw [hst] at h; exact absurd h (by decide)
  | Read t r =>
    change (w.sock.Read E w.g t r).sock.status = SocketInit at h
    rw [Read_sock] at h
    split_ifs at h
    exact h
  | Write t r =>
    change (w.sock.Write E w.g t r).sock.status = SocketInit at h
    rw [Write_sock] at h
    split_ifs at h
    exact h
  | Close c =>
    change (w.sock.Close E c).sock.status = SocketInit at h
    rcases Close_status E w.sock c with h2 | h2
    · rw [← h2]; exact h
    · rw [h2] at h; exact absurd h (by decide)

theorem call_status_connected (E : ErrorCodes) (w : SocketWorld) (c : SocketCall)
    (h : (w.call E c).sock.status = SocketConnected) (hw : w.sock.status ≠ SocketConnected) :
    c.IsGoodConnect := by
  cases c with
  | Connect o =>
    change (w.sock.Connect E o).2.status = SocketConnected at h
    rcases Connect_cases E w.sock o with ⟨-, hst, -⟩ | ⟨hnf, -, -⟩
    · rw [hst] at h
      rcases Close_status E w.sock o.close_ret with h2 | h2
      · rw [h2] at h; exact absurd h hw
      · rw [h2] at h; exact absurd h (by decide)
    · exact hnf
  | Read t r =>
    change (w.sock.Read E w.g t r).sock.status = SocketConnected at h
    rw [Read_sock] at h
    split_ifs at h
    exact absurd h hw
  | Write t r =>
    change (w.sock.Write E w.g t r).sock.status = SocketConnected at h
    rw [Write_sock] at h
    split_ifs at h
    exact absurd h hw
  | Close c =>
    change (w.sock.Close E c).sock.status = SocketConnected at h
    rcases Close_status E w.sock c with h2 | h2
    · rw [h2] at h; exact absurd h hw
    · rw [h2] at h; exact absurd h (by decide)

/-- C1, refuted as stated: a fresh socket that is connected, reads end of
stream and is connected again shows the statuses `SocketInit`,
`SocketConnected`, `SocketDisconnected`, `SocketConnected`, although the caller
made no `Close` call at all: the status goes from `SocketDisconnected` to
`SocketConnected` by a `Connect` call alone. -/
theorem C1_status_transitions_counterexample :
    statusTrace sampleCodes (SocketWorld.fresh (Globals.fresh 0)) reconnectCalls =
      [SocketInit, SocketConnected, SocketDisconnected, SocketConnected] ∧
    reconnectCalls.all (fun c => !c.isClose) = true := by
  decide

/-- C1, amended: along every sequence of `Connect`, `Read`, `Write` and `Close`
calls on a fresh socket, the status never returns to `SocketInit` once it has
left it; it becomes `SocketConnected` from another status only by a `Connect`
call all of whose steps succeed; and such a `Connect` call yields
`SocketConnected` from any status, without a `Close` call by the caller
(`Connect` closes the old descriptor itself). -/
theorem C1_status_transitions (E : ErrorCodes) (g : Globals) (cs : List SocketCall)
    (c : SocketCall) :
    ((((SocketWorld.fresh g).calls E cs).call E c).sock.Status = SocketInit →
      ((SocketWorld.fresh g).calls E cs).sock.Status = SocketInit) ∧
    ((((SocketWorld.fresh g).calls E cs).call E c).sock.Status = SocketConnected →
      ((SocketWorld.fresh g).calls E cs).sock.Status ≠ SocketConnected → c.IsGoodConnect) ∧
    (c.IsGoodConnect →
      (((SocketWorld.fresh g).calls E cs).call E c).sock.Status = SocketConnected) := by
  generalize (SocketWorld.fresh g).calls E cs = w
  refine ⟨call_status_init E w c, call_status_connected E w c, fun hc => ?_⟩
  cases c with
  | Connect o =>
    rcases Connect_cases E w.sock o with ⟨hf, -, -⟩ | ⟨-, hst, -⟩
    · exact absurd hf hc
    · exact hst
  | Read t r => exact absurd hc id
  | Write t r => exact absurd hc id
  | Close c => exact absurd hc id

end Socket

/-! ## Theorems: StStatistic -/

section Statistic

theorem Read_nread (E : ErrorCodes) (s : StSocket) (g : Globals) (t : Nat) (r : IoEnv) :
    (s.Read E g t r).g.statistic.nread =
      g.statistic.nread + (if r.n > 0 then r.n else 0) ∧
    (s.Read E g t r).g.statistic.nwrite = g.statistic.nwrite := by
  unfold StSocket.Read
  simp only
  split_ifs <;> simp [StStatistic.OnRead]

theorem Write_nwrite (E : ErrorCodes) (s : StSocket) (g : Globals) (t : Nat) (r : IoEnv) :
    (s.Write E g t r).g.statistic.nwrite =
      g.statistic.nwrite + (if r.n > 0 then r.n else 0) ∧
    (s.Write E g t r).g.statistic.nread = g.statistic.nread := by
  unfold StSocket.Write
  simp only
  split_ifs <;> simp [StStatistic.OnWrite]

theorem ios_counters (E : ErrorCodes) (cs : List IoCall) (w : Sys) :
    (w.ios E cs).g.statistic.nread = w.g.statistic.nread + positiveReads cs ∧
    (w.ios E cs).g.statistic.nwrite = w.g.statistic.nwrite + positiveWrites cs := by
  induction cs generalizing w with
  | nil => simp [Sys.ios, positiveReads, positiveWrites]
  | cons c cs ih =>
    have h := ih (w.io E c)
    cases c with
    | Read k t r =>
      have hr := Read_nread E (w.socks k) w.g t r
      simp only [Sys.ios, List.foldl_cons, positiveReads, positiveWrites] at h ⊢
      rw [h.1, h.2]
      simp only [Sys.io, hr.1, hr.2]
      constructor <;> first | trivial | exact Int.add_assoc _ _ _
    | Write k t r =>
      have hr := Write_nwrite E (w.socks k) w.g t r
      simp only [Sys.ios, List.foldl_cons, positiveReads, positiveWrites] at h ⊢
      rw [h.1, h.2]
      simp only [Sys.io, hr.1, hr.2]
      constructor <;> first | trivial | exact Int.add_assoc _ _ _

theorem positiveReads_nonneg (cs : List IoCall) : 0 ≤ positiveReads cs := by
  induction cs with
  | nil => simp [positiveReads]
  | cons c cs ih =>
    cases c with
    | Read k t r =>
      simp only [positiveReads]
      split_ifs <;> omega
    | Write k t r => simpa [positiveReads] using ih

theorem positiveWrites_nonneg (cs : List IoCall) : 0 ≤ positiveWrites cs := by
  induction cs with
  | nil => simp [positiveWrites]
  | cons c cs ih =>
    cases c with
    | Read k t r => simpa [positiveWrites] using ih
    | Write k t r =>
      simp only [positiveWrites]
      split_ifs <;> omega

theorem ios_append (E : ErrorCodes) (w : Sys) (xs ys : List IoCall) :
    w.ios E (xs ++ ys) = (w.ios E xs).ios E ys := by
  simp [Sys.ios, List.foldl_append]

/-- C5: starting from a fresh `StStatistic`, after any sequence of `Read` and
`Write` calls on any sockets by any threads with any results, `nread` is the sum
of the positive `Read` results and `nwrite` the sum of the positive `Write`
results, and no call of the sequence decreases either counter (counters taken
as unbounded integers). -/
theorem C5_byte_counters (E : ErrorCodes) (now : Int) (ctx : StLogContext) (errno : Int)
    (socks : Nat → StSocket) (cs : List IoCall) :
    ((Sys.mk socks ⟨StStatistic.new now, ctx, errno⟩).ios E cs).g.statistic.nread =
      positiveReads cs ∧
    ((Sys.mk socks ⟨StStatistic.new now, ctx, errno⟩).ios E cs).g.statistic.nwrite =
      positiveWrites cs ∧
    ∀ (done : List IoCall) (c : IoCall) (rest : List IoCall), cs = done ++ c :: rest →
      ((Sys.mk socks ⟨StStatistic.new now, ctx, errno⟩).ios E done).g.statistic.nread ≤
        ((Sys.mk socks ⟨StStatistic.new now, ctx, errno⟩).ios E (done ++ [c])).g.statistic.nread ∧
      ((Sys.mk socks ⟨StStatistic.new now, ctx, errno⟩).ios E done).g.statistic.nwrite ≤
        ((Sys.mk socks ⟨StStatistic.new now, ctx, errno⟩).ios E (done ++ [c])).g.statistic.nwrite := by
  generalize hw : Sys.mk socks ⟨StStatistic.new now, ctx, errno⟩ = w
  have h0 : w.g.statistic.nread = 0 ∧ w.g.statistic.nwrite = 0 := by
    subst hw; exact ⟨rfl, rfl⟩
  have h := ios_counters E cs w
  refine ⟨by rw [h.1, h0.1, zero_add], by rw [h.2, h0.2, zero_add], ?_⟩
  intro done c rest _
  rw [ios_append]
  have h1 := ios_counters E [c] (w.ios E done)
  have h2 := positiveReads_nonneg [c]
  have h3 := positiveWrites_nonneg [c]
  constructor <;> omega

theorem fdiv_of_ne (a b : ℚ) (hb : b ≠ 0) : fdiv a b = some (a / b) := by
  simp [fdiv, hb]

/-- C7: in an iteration of `DoReport` with cumulative counts `nread`, `nwrite`
and elapsed time `d = now - starttime` in milliseconds, both reported rates are
`0` when `d ≤ 0` (no division takes place), and when `d > 0` they are
`nread * 8 / d / 1000` and `nwrite * 8 / d / 1000` over the rationals, each
division having a nonzero divisor; `125000` bytes in `1000` ms give `1`. -/
theorem C7_report_rates (stat : StStatistic) (now : Int) :
    (now - stat.starttime ≤ 0 →
      (stat.DoReport now).read_mbps = some 0 ∧ (stat.DoReport now).write_mbps = some 0) ∧
    (now - stat.starttime > 0 →
      (stat.DoReport now).read_mbps =
        some ((stat.nread : ℚ) * 8 / ((now - stat.starttime : Int) : ℚ) / 1000) ∧
      (stat.DoReport now).write_mbps =
        some ((stat.nwrite : ℚ) * 8 / ((now - stat.starttime : Int) : ℚ) / 1000)) ∧
    ({ StStatistic.new now with nread := 125000, nwrite := 125000 }.DoReport
        (now + 1000)).read_mbps = some 1 ∧
    ({ StStatistic.new now with nread := 125000, nwrite := 125000 }.DoReport
        (now + 1000)).write_mbps = some 1 := by
  have key : ∀ (st : StStatistic) (t : Int), t - st.starttime > 0 →
      (st.DoReport t).read_mbps =
        some ((st.nread : ℚ) * 8 / ((t - st.starttime : Int) : ℚ) / 1000) ∧
      (st.DoReport t).write_mbps =
        some ((st.nwrite : ℚ) * 8 / ((t - st.starttime : Int) : ℚ) / 1000) := by
    intro st t hd
    have hq : ((t - st.starttime : Int) : ℚ) ≠ 0 := by
      exact_mod_cast (ne_of_gt hd)
    have h1000 : (1000 : ℚ) ≠ 0 := by norm_num
    simp only [StStatistic.DoReport, hd, if_true]
    rw [fdiv_of_ne _ _ hq, fdiv_of_ne _ _ hq]
    simp only [Option.some_bind, Option.bind]
    rw [fdiv_of_ne _ _ h1000, fdiv_of_ne _ _ h1000]
    exact ⟨rfl, rfl⟩
  refine ⟨fun hd => ?_, key stat now, ?_⟩
  · have hd2 : ¬ now - stat.starttime > 0 := by omega
    simp [StStatistic.DoReport, hd2]
  · have h := key { StStatistic.new now with nread := 125000, nwrite := 125000 } (now + 1000)
      (by simp [StStatistic.new])
    rw [h.1, h.2]
    simp only [StStatistic.new]
    have e : ((now + 1000 - now : Int) : ℚ) = 1000 := by
      have : now + 1000 - now = 1000 := by omega
      rw [this]; norm_num
    rw [e]
    norm_num

/-- C7 at concrete inputs: no elapsed time, and `125000` bytes over one second. -/
theorem C7_report_rates_witness :
    ((StStatistic.new 5).DoReport 5).read_mbps = some 0 ∧
    ({ StStatistic.new 5 with nread := 125000, nwrite := 125000 }.DoReport
        (5 + 1000)).read_mbps = some 1 :=
  ⟨((C7_report_rates (StStatistic.new 5) 5).1 (by decide)).1,
   (C7_report_rates (StStatistic.new 5) 5).2.2.1⟩

end Statistic

/-! ## Theorems: StLogContext -/

section Registry

theorem call_cache_other (ctx : StLogContext) (c : RegistryCall) (h : Nat)
    (hc : c.thread ≠ h) : (ctx.call c).cache h = ctx.cache h := by
  cases c with
  | SetId t id =>
    have : h ≠ t := fun e => hc e.symm
    simp [StLogContext.call, StLogContext.SetId, this]
  | GetId t =>
    have : h ≠ t := fun e => hc e.symm
    simp only [StLogContext.call, StLogContext.GetId]
    cases ctx.cache t <;> simp [this]

theorem calls_cache_other (cs : List RegistryCall) (ctx : StLogContext) (h : Nat)
    (hcs : ∀ c ∈ cs, c.thread ≠ h) : (ctx.calls cs).cache h = ctx.cache h := by
  induction cs generalizing ctx with
  | nil => rfl
  | cons c cs ih =>
    have h1 := ih (ctx.call c) (fun d hd => hcs d (List.mem_cons_of_mem _ hd))
    have h2 := call_cache_other ctx c h (hcs c (List.mem_cons_self _ _))
    simp only [StLogContext.calls, List.foldl_cons] at h1 ⊢
    rw [h1, h2]

/-- C8: after thread `h` calls `SetId(i)`, and after any further `SetId` and
`GetId` calls made by threads other than `h` with any ids, a `GetId` by `h`
returns exactly `i` (so never an id another thread registered) and leaves the
registry as it is. -/
theorem C8_get_own_id (ctx : StLogContext) (h : Nat) (i : Int) (cs : List RegistryCall)
    (hcs : ∀ c ∈ cs, c.thread ≠ h) :
    (((ctx.SetId h i).calls cs).GetId h).1 = i ∧
    ((((ctx.SetId h i).calls cs).GetId h).2).cache = ((ctx.SetId h i).calls cs).cache := by
  have hc := calls_cache_other cs (ctx.SetId h i) h hcs
  have hs : (ctx.SetId h i).cache h = some i := by simp [StLogContext.SetId]
  rw [hs] at hc
  simp [StLogContext.GetId, hc]

/-- C8 at a concrete input: thread `1` registers `10`, then threads `2` and `3`
register and look up their own ids. -/
theorem C8_get_own_id_witness :
    (((StLogContext.new.SetId 1 10).calls
      [.SetId 2 20, .GetId 3, .GetId 2, .SetId 3 10]).GetId 1).1 = 10 :=
  (C8_get_own_id StLogContext.new 1 10 [.SetId 2 20, .GetId 3, .GetId 2, .SetId 3 10]
    (by decide)).1

end Registry

/-! ## Theorems: StUtility -/

section Utility

/-- C10 at the failing input: for `sleep_seconds = 0.001` (a positive target),
`(int)(sleep_seconds * 1000 * 0.4)` is `(int)0.4 = 0`, so `rand() % 0` is
evaluated and `BuildRandomMTime` has no defined result, whatever the default
and the random draw. -/
theorem C10_modulus_by_zero (default_seconds : ℚ) (rand : Int) :
    (0 : ℚ) < 1 / 1000 ∧
    truncToInt ((1 / 1000 : ℚ) * 1000 * (4 / 10)) = 0 ∧
    StUtility.BuildRandomMTime (1 / 1000) default_seconds rand = none := by
  have h : truncToInt ((1 / 1000 : ℚ) * 1000 * (4 / 10)) = 0 := by
    unfold truncToInt
    norm_num
    decide
  refine ⟨by norm_num, h, ?_⟩
  unfold StUtility.BuildRandomMTime
  have hp : ¬ ((1 / 1000 : ℚ) ≤ 0) := by norm_num
  rw [if_neg hp]
  simp only [h, if_true]

theorem BuildRandomMTime_range (sleep_seconds default_seconds : ℚ) (rand : Int)
    (hs : 0 < sleep_seconds) (hd : 0 < truncToInt (sleep_seconds * 1000 * (4 / 10)))
    (hr : 0 ≤ rand) :
    ∃ v : Int, 0 ≤ v ∧ v < truncToInt (sleep_seconds * 1000 * (4 / 10)) ∧
      StUtility.BuildRandomMTime sleep_seconds default_seconds rand =
        some (truncToInt (sleep_seconds * 1000 * (8 / 10)) + v) := by
  refine ⟨rand.tmod (truncToInt (sleep_seconds * 1000 * (4 / 10))), ?_, ?_, ?_⟩
  · exact Int.tmod_nonneg _ hr
  · exact Int.tmod_lt_of_pos _ hd
  · unfold StUtility.BuildRandomMTime
    rw [if_neg (not_le.mpr hs)]
    simp only
    rw [if_neg (ne_of_gt hd)]

end Utility

/-! ## Theorems: StFarm -/

section Farm

theorem step_inv (w w1 : Farm) (e : ThreadEvent) (hk : e.KeepsGauge)
    (hstep : w.step e = some w1)
    (hw : w.g.statistic.threads = w.running.length) :
    w1.g.statistic.threads = w1.running.length ∧
    (w1.finished.length + w1.running.length : Int) =
      w.finished.length + w.running.length + (if e.isEnter then 1 else 0) := by
  cases e with
  | enter t id =>
    simp only [Farm.step] at hstep
    split_ifs at hstep with hmem
    cases hstep
    simp [StFarm.threadEnter, StStatistic.OnThreadRun, ThreadEvent.isEnter, hw]
    omega
  | slice t f =>
    simp only [Farm.step] at hstep
    split_ifs at hstep with hmem
    cases hstep
    simp [ThreadEvent.isEnter, hk w.g, hw]
  | leave t id ret =>
    simp only [Farm.step] at hstep
    split_ifs at hstep with hmem
    cases hstep
    have hlen := List.length_erase_of_mem hmem
    have hpos : 0 < w.running.length := List.length_pos_of_mem hmem
    simp only [StFarm.threadExit, StStatistic.OnThreadQuit, ThreadEvent.isEnter, hw, hlen,
      List.length_cons]
    constructor
    · omega
    · simp
      omega

theorem exec_inv (evs : List ThreadEvent) (w w1 : Farm) (hk : ∀ e ∈ evs, e.KeepsGauge)
    (hexec : w.exec evs = some w1)
    (hw : w.g.statistic.threads = w.running.length) :
    w1.g.statistic.threads = w1.running.length ∧
    (w1.finished.length + w1.running.length : Int) =
      w.finished.length + w.running.length + (evs.filter ThreadEvent.isEnter).length := by
  induction evs generalizing w with
  | nil =>
    simp only [Farm.exec, Option.some.injEq] at hexec
    subst hexec
    simp [hw]
  | cons e es ih =>
    simp only [Farm.exec] at hexec
    cases hs : w.step e with
    | none => simp [hs] at hexec
    | some w2 =>
      simp only [hs, Option.some_bind] at hexec
      have h1 := step_inv w w2 e (hk e (List.mem_cons_self _ _)) hs hw
      have h2 := ih w2 (fun d hd => hk d (List.mem_cons_of_mem _ hd)) hexec h1.1
      refine ⟨h2.1, ?_⟩
      rw [h2.2, h1.2]
      by_cases he : e.isEnter = true
      · simp [List.filter, he]
        omega
      · simp [List.filter, he]

/-- C6: the wrapper `st_thread_function` changes the statistics only by adding
`1` to the active-thread gauge before `Process` is invoked and subtracting `1`
after it has returned, whatever status `Process` returns; so in every schedule
of wrappers started on a fresh `StStatistic`, with `Process` leaving the gauge
alone, the gauge equals the number of threads inside `Process`, and it is `0`
once every started wrapper has returned. -/
theorem C6_thread_gauge (task : StTask) (self_thread : Nat) (g : Globals) (now : Int)
    (evs : List ThreadEvent) (w : Farm) (hk : ∀ e ∈ evs, e.KeepsGauge)
    (hexec : (Farm.fresh now).exec evs = some w) :
    (StFarm.threadEnter task.GetId self_thread g).statistic =
      { g.statistic with threads := g.statistic.threads + 1 } ∧
    (StFarm.st_thread_function task self_thread g).statistic =
      { (task.Process (StFarm.threadEnter task.GetId self_thread g)).2.statistic with
        threads :=
          (task.Process (StFarm.threadEnter task.GetId self_thread g)).2.statistic.threads - 1 } ∧
    ((task.Process (StFarm.threadEnter task.GetId self_thread g)).2.statistic.threads =
        (StFarm.threadEnter task.GetId self_thread g).statistic.threads →
      (StFarm.st_thread_function task self_thread g).statistic.threads = g.statistic.threads) ∧
    w.g.statistic.threads = w.running.length ∧
    (w.running = [] →
      w.finished.length = (evs.filter ThreadEvent.isEnter).length ∧
      w.g.statistic.threads = 0) := by
  have hinv := exec_inv evs (Farm.fresh now) w hk hexec rfl
  refine ⟨rfl, rfl, ?_, hinv.1, ?_⟩
  · intro hp
    show (task.Process (StFarm.threadEnter task.GetId self_thread g)).2.statistic.threads - 1 =
      g.statistic.threads
    rw [hp]
    show g.statistic.threads + 1 - 1 = g.statistic.threads
    omega
  · intro hrun
    have h1 := hinv.1
    have h2 := hinv.2
    rw [hrun] at h1 h2
    simp only [Farm.fresh, List.length_nil, Nat.cast_zero, add_zero, zero_add] at h1 h2
    exact ⟨by exact_mod_cast h2, h1⟩

/-- C6 at a concrete input: two interleaved wrappers, one of which returns a
nonzero status, leave the gauge at `0`. -/
theorem C6_thread_gauge_witness :
    (Farm.fresh 0).exec sampleSchedule = some sampleFinal ∧
    (StFarm.st_thread_function sampleTask 1 (Globals.fresh 0)).statistic.threads = 0 ∧
    sampleFinal.finished.length = 2 ∧
    sampleFinal.g.statistic.threads = 0 :=
  have hk : ∀ e ∈ sampleSchedule, e.KeepsGauge := by
    intro e he
    simp only [sampleSchedule, List.mem_cons, List.mem_singleton, List.mem_nil_iff,
      or_false] at he
    rcases he with rfl | rfl | rfl | rfl | rfl | rfl <;>
      first | trivial | exact fun _ => rfl
  have hexec : (Farm.fresh 0).exec sampleSchedule = some sampleFinal := by
    simp [Farm.exec, Farm.step, sampleSchedule, sampleFinal, Farm.fresh, Globals.fresh,
      StFarm.threadEnter, StFarm.threadExit, StStatistic.OnThreadRun, StStatistic.OnThreadQuit,
      StStatistic.OnTaskStart, StStatistic.OnWrite, StStatistic.new]
  have h := C6_thread_gauge sampleTask 1 (Globals.fresh 0) 0 sampleSchedule sampleFinal hk hexec
  ⟨hexec, h.2.2.1 rfl, (h.2.2.2.2 rfl).1, (h.2.2.2.2 rfl).2⟩

end Farm

end StLoad
